import Mathlib

/-!
Shallow embedding of the compaction-task orchestration of an LSM storage
engine (`src/storage/src/compaction/task.rs`) and the contracts it relies on.

Modelling choices:
* the shared per-handle "compacting" flag is a global map `Nat → Bool` keyed by
  the handle's identity (`handle_id`);
* `HashSet<FileMeta>` becomes a duplicate-free list built by membership-checked
  insertion (`insertMeta` / `extendMetas`); the claims about it are
  order-insensitive (membership, `Nodup`), matching the unspecified iteration
  order of the Rust `HashSet`;
* `FileId::random()` becomes a threaded counter of fresh ids; freshness of the
  random ids with respect to the pre-existing files is a hypothesis where a
  claim needs it;
* the external collaborators (merged-reader builder, SST writer, manifest
  committer) are an `Env` of oracles that may fail, and the `World` records the
  flag state, the applied manifest edits, and every committer invocation.
-/

namespace Compaction

/-- Error codes standing for the `Result` error values of the source. -/
abbrev Error := Nat

/-- `FileMeta` (from the `sst` module): immutable description of one SST file.
Timestamps are modelled as integers. -/
structure FileMeta where
  region_id : Nat
  file_id : Nat
  time_range : Option (Int × Int)
  level : Nat
  file_size : Nat
deriving DecidableEq

/-- `FileHandle` (from the `sst` module): a live file's meta plus the identity
of its shared "compacting" flag cell. -/
structure FileHandle where
  handle_id : Nat
  meta : FileMeta
deriving DecidableEq

/-- Modelled from the spec: `FileHandle::mark_compacting` (the `sst` module is
not among the sampled sources) sets the handle's shared compacting flag, held
in the global flag state, to `b`. -/
def mark_compacting (flags : Nat → Bool) (h : FileHandle) (b : Bool) : Nat → Bool :=
  fun j => if j = h.handle_id then b else flags j

/-- `CompactionOutput`: one planned merge into a time bucket. -/
structure CompactionOutput where
  output_level : Nat
  bucket_bound : Int
  bucket : Int
  inputs : List FileHandle
deriving DecidableEq

/-- `SstInfo`: what `write_sst` reports about a written file. -/
structure SstInfo where
  time_range : Option (Int × Int)
  file_size : Nat
deriving DecidableEq

/-- `RegionEdit`: the atomic unit of durable manifest change. -/
structure RegionEdit where
  region_version : Nat
  flushed_sequence : Option Nat
  files_to_add : List FileMeta
  files_to_remove : List FileMeta
deriving DecidableEq

/-- The external collaborators of the task: file contents (rows modelled by
their timestamps), injectable reader failures, the SST writer, and the
manifest committer's verdict. -/
structure Env where
  contents : Nat → List Int
  readerErr : List FileHandle → Int → Int → Option Error
  write_sst : Nat → List Int → Except Error SstInfo
  commitOk : RegionEdit → Bool

/-- `CompactionTaskImpl`: the fields the claims depend on. `region_id` stands
for `shared_data.id()` and `region_version` for
`shared_data.version_control.metadata().version()`. -/
structure CompactionTaskImpl where
  region_id : Nat
  region_version : Nat
  outputs : List CompactionOutput
  expired_ssts : List FileHandle

/-- The observable state outside the task: the compacting flags, the applied
manifest edits, and the trace of committer invocations. -/
structure World where
  flags : Nat → Bool
  manifest : List RegionEdit
  commits : List RegionEdit

/-- Modelled from the spec: `build_sst_reader` (`compaction/writer.rs` is not
among the sampled sources) opens a merged read stream over the input files
restricted to the half-open time interval `[lo, hi)`; `readerErr` lets the
environment inject an I/O failure. -/
def build_sst_reader (env : Env) (inputs : List FileHandle) (lo hi : Int) :
    Except Error (List Int) :=
  match env.readerErr inputs lo hi with
  | some e => .error e
  | none =>
      .ok (((inputs.map fun h => env.contents h.meta.file_id).flatten).filter
        fun ts => decide (lo ≤ ts) && decide (ts < hi))

/-- `CompactionOutput::build`: open the merged reader over the bucket, allocate
a fresh output file id (`FileId::random()` is modelled by the counter `ctr`),
write the stream, and return the resulting meta plus the advanced counter. -/
def CompactionOutput.build (env : Env) (o : CompactionOutput) (region_id : Nat)
    (ctr : Nat) : Except Error (FileMeta × Nat) :=
  match build_sst_reader env o.inputs o.bucket_bound (o.bucket_bound + o.bucket) with
  | .error e => .error e
  | .ok rows =>
      match env.write_sst ctr rows with
      | .error e => .error e
      | .ok info =>
          .ok ({ region_id := region_id, file_id := ctr, time_range := info.time_range,
                 level := o.output_level, file_size := info.file_size }, ctr + 1)

/-- Builds every output of the round; under `join_all` each build runs to
completion even when another fails. The fresh-id counter is threaded through. -/
def buildAll (env : Env) (region_id : Nat) :
    List CompactionOutput → Nat → List (Except Error FileMeta) × Nat
  | [], ctr => ([], ctr)
  | o :: rest, ctr =>
      match CompactionOutput.build env o region_id ctr with
      | .ok (m, ctr2) =>
          let p := buildAll env region_id rest ctr2
          (.ok m :: p.1, p.2)
      | .error e =>
          let p := buildAll env region_id rest ctr
          (.error e :: p.1, p.2)

/-- `collect::<Result<_>>()` over the joined build results: the first error
aborts, otherwise all values are kept in order. -/
def collectResults : List (Except Error FileMeta) → Except Error (List FileMeta)
  | [] => .ok []
  | .error e :: _ => .error e
  | .ok m :: rest =>
      match collectResults rest with
      | .ok l => .ok (m :: l)
      | .error e => .error e

/-- `HashSet<FileMeta>` insertion: keep the set duplicate-free. -/
def insertMeta (s : List FileMeta) (m : FileMeta) : List FileMeta :=
  if m ∈ s then s else s ++ [m]

/-- `HashSet::extend` over a list of metas. -/
def extendMetas (s : List FileMeta) (ms : List FileMeta) : List FileMeta :=
  ms.foldl insertMeta s

/-- All input metas of all outputs of the task, in iteration order (the
sequence `compacted_inputs.extend(output.inputs.iter().map(FileHandle::meta))`
ranges over). -/
def inputMetas (t : CompactionTaskImpl) : List FileMeta :=
  (t.outputs.map fun o => o.inputs.map FileHandle.meta).flatten

/-- The metas of the task's expired SSTs. -/
def expiredMetas (t : CompactionTaskImpl) : List FileMeta :=
  t.expired_ssts.map FileHandle.meta

/-- The handle identities of all inputs of a list of outputs. -/
def inputHandleIds (outs : List CompactionOutput) : List Nat :=
  (outs.map fun o => o.inputs.map FileHandle.handle_id).flatten

/-- The inner loop of `mark_files_compacting`: mark every input of one output. -/
def markInputs (inputs : List FileHandle) (b : Bool) (flags : Nat → Bool) : Nat → Bool :=
  inputs.foldl (fun f i => mark_compacting f i b) flags

/-- Marking over a list of outputs. -/
def markOutputs (outs : List CompactionOutput) (b : Bool) (flags : Nat → Bool) :
    Nat → Bool :=
  outs.foldl (fun f o => markInputs o.inputs b f) flags

/-- `CompactionTaskImpl::mark_files_compacting`: iterate the task's *current*
`outputs` list and set each input handle's flag. -/
def mark_files_compacting (t : CompactionTaskImpl) (b : Bool) (flags : Nat → Bool) :
    Nat → Bool :=
  markOutputs t.outputs b flags

/-- `CompactionTaskImpl::merge_ssts`: drain `outputs`, collect the de-duplicated
input metas, build all outputs, and fail on the first build error. Returns the
task after the drain, the advanced id counter, and
`(output metas, compacted input metas)` on success. -/
def merge_ssts (env : Env) (t : CompactionTaskImpl) (ctr : Nat) :
    CompactionTaskImpl × Nat × Except Error (List FileMeta × List FileMeta) :=
  let compacted := extendMetas [] (inputMetas t)
  let p := buildAll env t.region_id t.outputs ctr
  ({ t with outputs := [] }, p.2,
    match collectResults p.1 with
    | .ok metas => .ok (extendMetas [] metas, compacted)
    | .error e => .error e)

/-- `CompactionTaskImpl::write_manifest_and_apply`: build the `RegionEdit` and
invoke the manifest committer (`write_edit_and_apply`, an external collaborator
whose success the environment decides). Every invocation is recorded in
`commits`; the edit reaches `manifest` only when the commit succeeds. -/
def write_manifest_and_apply (env : Env) (t : CompactionTaskImpl) (w : World)
    (output input : List FileMeta) : World × Except Error Unit :=
  let edit : RegionEdit :=
    { region_version := t.region_version, flushed_sequence := none,
      files_to_add := output, files_to_remove := input }
  let w2 := { w with commits := w.commits ++ [edit] }
  if env.commitOk edit then
    ({ w2 with manifest := w2.manifest ++ [edit] }, .ok ())
  else
    (w2, .error 0)

/-- `CompactionTaskImpl::run`: mark all inputs compacting, merge, extend the
removal set with the expired metas, commit. Returns the task (for the later
destructor), the world, the counter, and the result. -/
def run (env : Env) (t : CompactionTaskImpl) (w : World) (ctr : Nat) :
    CompactionTaskImpl × World × Nat × Except Error Unit :=
  let w1 := { w with flags := mark_files_compacting t true w.flags }
  let t2 := (merge_ssts env t ctr).1
  let ctr2 := (merge_ssts env t ctr).2.1
  match (merge_ssts env t ctr).2.2 with
  | .error e => (t2, w1, ctr2, .error e)
  | .ok (output, compacted) =>
      let compacted2 := extendMetas compacted (expiredMetas t2)
      let res := write_manifest_and_apply env t2 w1 output compacted2
      (t2, res.1, ctr2, res.2)

/-- `impl Drop for CompactionTaskImpl`: the destructor clears the compacting
flags over the task's current `outputs` list. -/
def dropTask (t : CompactionTaskImpl) (w : World) : World :=
  { w with flags := mark_files_compacting t false w.flags }

/-- Full lifecycle of one round: `run` consumes the task, whose destructor then
runs at the end of `run`'s scope (on both the success and the error path). -/
def runAndDrop (env : Env) (t : CompactionTaskImpl) (w : World) (ctr : Nat) :
    World × Nat × Except Error Unit :=
  let r := run env t w ctr
  (dropTask r.1 r.2.1, r.2.2.1, r.2.2.2)

end Compaction

namespace Compaction

/-! ### Helper lemmas about flag marking -/

lemma markInputs_cons (i : FileHandle) (is : List FileHandle) (b : Bool)
    (flags : Nat → Bool) :
    markInputs (i :: is) b flags = markInputs is b (mark_compacting flags i b) := rfl

lemma markInputs_apply (inputs : List FileHandle) (b : Bool) (flags : Nat → Bool)
    (j : Nat) :
    markInputs inputs b flags j =
      if j ∈ inputs.map FileHandle.handle_id then b else flags j := by
  induction inputs generalizing flags with
  | nil => simp [markInputs]
  | cons i is ih =>
      rw [markInputs_cons, ih]
      by_cases h1 : j ∈ is.map FileHandle.handle_id
      · simp [h1]
      · by_cases h2 : j = i.handle_id <;> simp [h1, h2, mark_compacting]

lemma markOutputs_cons (o : CompactionOutput) (os : List CompactionOutput) (b : Bool)
    (flags : Nat → Bool) :
    markOutputs (o :: os) b flags = markOutputs os b (markInputs o.inputs b flags) := rfl

lemma inputHandleIds_cons (o : CompactionOutput) (os : List CompactionOutput) :
    inputHandleIds (o :: os) = o.inputs.map FileHandle.handle_id ++ inputHandleIds os := by
  simp [inputHandleIds]

lemma markOutputs_apply (outs : List CompactionOutput) (b : Bool) (flags : Nat → Bool)
    (j : Nat) :
    markOutputs outs b flags j = if j ∈ inputHandleIds outs then b else flags j := by
  induction outs generalizing flags with
  | nil => simp [markOutputs, inputHandleIds]
  | cons o os ih =>
      rw [markOutputs_cons, ih, markInputs_apply, inputHandleIds_cons]
      by_cases h1 : j ∈ inputHandleIds os <;>
        by_cases h2 : j ∈ o.inputs.map FileHandle.handle_id <;>
          simp [h1, h2, List.mem_append]

lemma mark_files_compacting_apply (t : CompactionTaskImpl) (b : Bool)
    (flags : Nat → Bool) (j : Nat) :
    mark_files_compacting t b flags j =
      if j ∈ inputHandleIds t.outputs then b else flags j :=
  markOutputs_apply t.outputs b flags j

lemma write_manifest_and_apply_flags (env : Env) (t : CompactionTaskImpl) (w : World)
    (output input : List FileMeta) :
    (write_manifest_and_apply env t w output input).1.flags = w.flags := by
  unfold write_manifest_and_apply
  dsimp only
  split <;> rfl

lemma write_manifest_and_apply_commits (env : Env) (t : CompactionTaskImpl) (w : World)
    (output input : List FileMeta) :
    (write_manifest_and_apply env t w output input).1.commits =
      w.commits ++ [{ region_version := t.region_version, flushed_sequence := none,
                      files_to_add := output, files_to_remove := input }] := by
  unfold write_manifest_and_apply
  dsimp only
  split <;> rfl

lemma run_flags (env : Env) (t : CompactionTaskImpl) (w : World) (ctr : Nat) :
    (run env t w ctr).2.1.flags = mark_files_compacting t true w.flags := by
  unfold run
  cases hm : (merge_ssts env t ctr).2.2 with
  | error e => rfl
  | ok p => cases p with
    | mk output compacted => simp [write_manifest_and_apply_flags]

end Compaction

namespace Compaction

/-- C8: `run` (whose returned world's flags are exactly the state after its
first step) sets the compacting flag to `true` on every input file handle of
every output of the round, and the marking is idempotent. -/
theorem run_marks_all_inputs_compacting_idempotently
    (env : Env) (t : CompactionTaskImpl) (w : World) (ctr : Nat)
    (flags : Nat → Bool) (j : Nat) :
    (run env t w ctr).2.1.flags = mark_files_compacting t true w.flags ∧
    mark_files_compacting t true flags j =
      (if j ∈ inputHandleIds t.outputs then true else flags j) ∧
    mark_files_compacting t true (mark_files_compacting t true flags) =
      mark_files_compacting t true flags := by
  refine ⟨run_flags env t w ctr, mark_files_compacting_apply t true flags j, ?_⟩
  funext k
  rw [mark_files_compacting_apply, mark_files_compacting_apply]
  by_cases h : k ∈ inputHandleIds t.outputs <;> simp [h]

/-- C9: `mark_files_compacting b` changes exactly the flags of the handles in
the task's current `outputs` list (everything else keeps its value), and
`merge_ssts` drains that list, so any later call — the destructor's included —
iterates an empty list and changes no flag at all. -/
theorem mark_files_frame_and_merge_drains_outputs
    (env : Env) (t : CompactionTaskImpl) (ctr : Nat) (b : Bool)
    (flags : Nat → Bool) (j : Nat) :
    mark_files_compacting t b flags j =
      (if j ∈ inputHandleIds t.outputs then b else flags j) ∧
    (merge_ssts env t ctr).1.outputs = [] ∧
    mark_files_compacting (merge_ssts env t ctr).1 b flags = flags :=
  ⟨mark_files_compacting_apply t b flags j, rfl, rfl⟩

/-! ### Concrete scenario refuting C1 -/

/-- A level-0 input file. -/
def fm0 : FileMeta :=
  { region_id := 1, file_id := 10, time_range := none, level := 0, file_size := 100 }

/-- Its handle; flag cell 0. -/
def fh0 : FileHandle := { handle_id := 0, meta := fm0 }

/-- One output consuming `fh0` into level 1, bucket `[0, 100)`. -/
def out0 : CompactionOutput :=
  { output_level := 1, bucket_bound := 0, bucket := 100, inputs := [fh0] }

/-- An environment in which every collaborator call succeeds. -/
def env0 : Env :=
  { contents := fun _ => [], readerErr := fun _ _ _ => none,
    write_sst := fun _ _ => .ok { time_range := none, file_size := 0 },
    commitOk := fun _ => true }

/-- The round's task: the single output, no expired SSTs. -/
def task0 : CompactionTaskImpl :=
  { region_id := 1, region_version := 7, outputs := [out0], expired_ssts := [] }

/-- Initial world: all flags idle, empty manifest, no commits. -/
def w0 : World := { flags := fun _ => false, manifest := [], commits := [] }

/-- C1 (refuted — code bug): on a round that runs to a *successful* completion
and is then dropped, the input handle's compacting flag is still `true`:
`merge_ssts` drained `outputs`, so the destructor's
`mark_files_compacting(false)` iterated an empty list and cleared nothing,
contradicting the claimed invariant that the flag is back to idle after `run`
returns. -/
theorem flag_not_cleared_after_successful_run :
    w0.flags fh0.handle_id = false ∧
    (runAndDrop env0 task0 w0 20).2.2 = Except.ok () ∧
    (runAndDrop env0 task0 w0 20).1.flags fh0.handle_id = true :=
  ⟨rfl, rfl, rfl⟩

end Compaction

namespace Compaction

/-! ### Lemmas about result collection and the run paths -/

lemma collectResults_ok_mem {es : List (Except Error FileMeta)} {l : List FileMeta}
    (h : collectResults es = .ok l) : ∀ m ∈ l, Except.ok m ∈ es := by
  induction es generalizing l with
  | nil =>
      simp only [collectResults] at h
      cases h
      simp
  | cons r rest ih =>
      cases r with
      | error e => simp [collectResults] at h
      | ok m0 =>
          simp only [collectResults] at h
          cases hrest : collectResults rest with
          | ok l' =>
              rw [hrest] at h
              cases h
              intro m hm
              rcases List.mem_cons.mp hm with h1 | h1
              · exact h1 ▸ List.mem_cons_self _ _
              · exact List.mem_cons_of_mem _ (ih hrest m h1)
          | error e => rw [hrest] at h; cases h

lemma collectResults_ok_all {es : List (Except Error FileMeta)} {l : List FileMeta}
    (h : collectResults es = .ok l) : ∀ r ∈ es, ∃ m, r = Except.ok m := by
  induction es generalizing l with
  | nil => simp
  | cons r0 rest ih =>
      cases r0 with
      | error e => simp [collectResults] at h
      | ok m0 =>
          simp only [collectResults] at h
          cases hrest : collectResults rest with
          | ok l' =>
              intro r hr
              rcases List.mem_cons.mp hr with h1 | h1
              · exact ⟨m0, h1⟩
              · exact ih hrest r h1
          | error e => rw [hrest] at h; cases h

lemma collectResults_error_of_mem {es : List (Except Error FileMeta)} {e : Error}
    (h : Except.error e ∈ es) : ∃ q, collectResults es = .error q := by
  induction es with
  | nil => cases h
  | cons r0 rest ih =>
      cases r0 with
      | error e0 => exact ⟨e0, rfl⟩
      | ok m0 =>
          rcases List.mem_cons.mp h with h1 | h1
          · cases h1
          · rcases ih h1 with ⟨q, hq⟩
            exact ⟨q, by simp [collectResults, hq]⟩

lemma merge_ssts_res (env : Env) (t : CompactionTaskImpl) (ctr : Nat) :
    (merge_ssts env t ctr).2.2 =
      match collectResults (buildAll env t.region_id t.outputs ctr).1 with
      | .ok metas => .ok (extendMetas [] metas, extendMetas [] (inputMetas t))
      | .error e => .error e := rfl

lemma merge_ssts_ok_shape (env : Env) (t : CompactionTaskImpl) (ctr : Nat)
    {output compacted : List FileMeta}
    (h : (merge_ssts env t ctr).2.2 = .ok (output, compacted)) :
    compacted = extendMetas [] (inputMetas t) ∧
    ∃ metas, collectResults (buildAll env t.region_id t.outputs ctr).1 = .ok metas ∧
      output = extendMetas [] metas := by
  rw [merge_ssts_res] at h
  cases hc : collectResults (buildAll env t.region_id t.outputs ctr).1 with
  | ok metas =>
      rw [hc] at h
      cases h
      exact ⟨rfl, metas, rfl, rfl⟩
  | error e => rw [hc] at h; cases h

lemma run_err_world (env : Env) (t : CompactionTaskImpl) (w : World) (ctr : Nat)
    {e : Error} (h : (merge_ssts env t ctr).2.2 = .error e) :
    (run env t w ctr).2.1 = { w with flags := mark_files_compacting t true w.flags } ∧
    (run env t w ctr).2.2.2 = .error e := by
  unfold run
  rw [h]
  exact ⟨rfl, rfl⟩

lemma run_ok_commits (env : Env) (t : CompactionTaskImpl) (w : World) (ctr : Nat)
    {output compacted : List FileMeta}
    (h : (merge_ssts env t ctr).2.2 = .ok (output, compacted)) :
    (run env t w ctr).2.1.commits =
      w.commits ++ [{ region_version := t.region_version, flushed_sequence := none,
                      files_to_add := output,
                      files_to_remove := extendMetas compacted (expiredMetas t) }] := by
  unfold run
  rw [h]
  exact write_manifest_and_apply_commits env _ _ output _

/-- From the observation that the committer trace grew by `edit`, recover the
success of the merge phase and the exact shape of `edit`. -/
lemma run_commits_shape (env : Env) (t : CompactionTaskImpl) (w : World) (ctr : Nat)
    {edit : RegionEdit}
    (h : (run env t w ctr).2.1.commits = w.commits ++ [edit]) :
    ∃ metas, collectResults (buildAll env t.region_id t.outputs ctr).1 = .ok metas ∧
      edit = { region_version := t.region_version, flushed_sequence := none,
               files_to_add := extendMetas [] metas,
               files_to_remove :=
                 extendMetas (extendMetas [] (inputMetas t)) (expiredMetas t) } := by
  cases hm : (merge_ssts env t ctr).2.2 with
  | error e =>
      have hw := (run_err_world env t w ctr hm).1
      rw [hw] at h
      simpa using congrArg List.length h
  | ok p =>
      cases p with
      | mk output compacted =>
          have hc := run_ok_commits env t w ctr hm
          rw [hc] at h
          have hed := List.append_cancel_left h.symm
          rcases merge_ssts_ok_shape env t ctr hm with ⟨hcomp, metas, hcm, hout⟩
          refine ⟨metas, hcm, ?_⟩
          have : edit = { region_version := t.region_version, flushed_sequence := none,
                          files_to_add := output,
                          files_to_remove := extendMetas compacted (expiredMetas t) } := by
            cases hed
            rfl
          rw [this, hcomp, hout]

end Compaction

namespace Compaction

/-- C3: if the merge phase fails, `run` returns that very error, the manifest
committer is never invoked (the commit trace is unchanged), and the manifest
after the call equals the manifest before the call. -/
theorem merge_failure_leaves_manifest_untouched
    (env : Env) (t : CompactionTaskImpl) (w : World) (ctr : Nat) (e : Error)
    (h : (merge_ssts env t ctr).2.2 = .error e) :
    (run env t w ctr).2.2.2 = .error e ∧
    (run env t w ctr).2.1.commits = w.commits ∧
    (run env t w ctr).2.1.manifest = w.manifest := by
  rcases run_err_world env t w ctr h with ⟨hw, hr⟩
  rw [hw]
  exact ⟨hr, rfl, rfl⟩

/-- An environment whose merged-reader builder always fails with error 5. -/
def env2 : Env :=
  { contents := fun _ => [], readerErr := fun _ _ _ => some 5,
    write_sst := fun _ _ => .ok { time_range := none, file_size := 0 },
    commitOk := fun _ => true }

/-- Witness for C3 at a concrete failing round. -/
theorem merge_failure_leaves_manifest_untouched_witness :
    (merge_ssts env2 task0 20).2.2 = Except.error 5 ∧
    (run env2 task0 w0 20).2.2.2 = Except.error 5 ∧
    (run env2 task0 w0 20).2.1.commits = w0.commits ∧
    (run env2 task0 w0 20).2.1.manifest = w0.manifest :=
  ⟨rfl, (merge_failure_leaves_manifest_untouched env2 task0 w0 20 5 rfl).1,
    (merge_failure_leaves_manifest_untouched env2 task0 w0 20 5 rfl).2.1,
    (merge_failure_leaves_manifest_untouched env2 task0 w0 20 5 rfl).2.2⟩

/-- C4: the manifest committer is invoked only after every output's build has
completed and all of them succeeded: a failed build means the commit trace is
untouched, and a grown commit trace means every build result was a success. -/
theorem commit_only_after_all_builds_succeed
    (env : Env) (t : CompactionTaskImpl) (w : World) (ctr : Nat) :
    ((∃ e, Except.error e ∈ (buildAll env t.region_id t.outputs ctr).1) →
      (run env t w ctr).2.1.commits = w.commits) ∧
    ((run env t w ctr).2.1.commits ≠ w.commits →
      ∀ r ∈ (buildAll env t.region_id t.outputs ctr).1, ∃ m, r = Except.ok m) := by
  constructor
  · rintro ⟨e, he⟩
    rcases collectResults_error_of_mem he with ⟨q, hq⟩
    have hm : (merge_ssts env t ctr).2.2 = .error q := by
      rw [merge_ssts_res, hq]
    rw [(run_err_world env t w ctr hm).1]
  · intro hne
    cases hc : collectResults (buildAll env t.region_id t.outputs ctr).1 with
    | ok metas => exact collectResults_ok_all hc
    | error e =>
        have hm : (merge_ssts env t ctr).2.2 = .error e := by
          rw [merge_ssts_res, hc]
        exact absurd (by rw [(run_err_world env t w ctr hm).1]) hne

/-- Witness for C4: with the failing reader, one build errors and the commit
trace stays empty. -/
theorem commit_only_after_all_builds_succeed_witness :
    (run env2 task0 w0 20).2.1.commits = w0.commits :=
  (commit_only_after_all_builds_succeed env2 task0 w0 20).1 ⟨5, List.Mem.head _⟩

end Compaction

namespace Compaction

/-! ### Set lemmas for the `HashSet` model -/

lemma mem_insertMeta (s : List FileMeta) (x m : FileMeta) :
    m ∈ insertMeta s x ↔ m ∈ s ∨ m = x := by
  unfold insertMeta
  split
  · constructor
    · exact Or.inl
    · rintro (h | rfl)
      · exact h
      · assumption
  · simp [List.mem_append]

lemma extendMetas_cons (s : List FileMeta) (x : FileMeta) (xs : List FileMeta) :
    extendMetas s (x :: xs) = extendMetas (insertMeta s x) xs := rfl

lemma mem_extendMetas (ms : List FileMeta) :
    ∀ (s : List FileMeta) (m : FileMeta), m ∈ extendMetas s ms ↔ m ∈ s ∨ m ∈ ms := by
  induction ms with
  | nil => simp [extendMetas]
  | cons x xs ih =>
      intro s m
      rw [extendMetas_cons, ih, mem_insertMeta]
      simp [List.mem_cons]
      tauto

lemma nodup_insertMeta {s : List FileMeta} (h : s.Nodup) (x : FileMeta) :
    (insertMeta s x).Nodup := by
  unfold insertMeta
  split
  · exact h
  · simp [List.nodup_append, h, List.disjoint_singleton]
    assumption

lemma nodup_extendMetas (ms : List FileMeta) :
    ∀ {s : List FileMeta}, s.Nodup → (extendMetas s ms).Nodup := by
  induction ms with
  | nil => intro s h; exact h
  | cons x xs ih =>
      intro s h
      rw [extendMetas_cons]
      exact ih (nodup_insertMeta h x)

/-- C2: for a round whose commit trace grew by `edit` and that succeeded, the
edit's removal list is duplicate-free and holds exactly the union of the input
metas of all the round's outputs and the expired metas. -/
theorem files_to_remove_is_deduped_union
    (env : Env) (t : CompactionTaskImpl) (w : World) (ctr : Nat) (edit : RegionEdit)
    (_hsucc : (run env t w ctr).2.2.2 = .ok ())
    (hc : (run env t w ctr).2.1.commits = w.commits ++ [edit]) :
    edit.files_to_remove.Nodup ∧
    ∀ m, m ∈ edit.files_to_remove ↔ (m ∈ inputMetas t ∨ m ∈ expiredMetas t) := by
  rcases run_commits_shape env t w ctr hc with ⟨metas, hcm, rfl⟩
  constructor
  · exact nodup_extendMetas _ (nodup_extendMetas _ List.nodup_nil)
  · intro m
    rw [mem_extendMetas, mem_extendMetas]
    simp

end Compaction

namespace Compaction

/-! ### Freshness of the allocated output file ids -/

lemma build_ok_shape {env : Env} {o : CompactionOutput} {rid ctr : Nat}
    {m : FileMeta} {c : Nat}
    (h : CompactionOutput.build env o rid ctr = .ok (m, c)) :
    m.file_id = ctr ∧ c = ctr + 1 := by
  unfold CompactionOutput.build at h
  cases hr : build_sst_reader env o.inputs o.bucket_bound (o.bucket_bound + o.bucket) with
  | error e => rw [hr] at h; cases h
  | ok rows =>
      rw [hr] at h
      dsimp only at h
      cases hw : env.write_sst ctr rows with
      | error e => rw [hw] at h; cases h
      | ok info =>
          rw [hw] at h
          dsimp only at h
          cases h
          exact ⟨rfl, rfl⟩

lemma buildAll_ok_le (env : Env) (rid : Nat) (outs : List CompactionOutput) :
    ∀ (ctr : Nat) (m : FileMeta),
      Except.ok m ∈ (buildAll env rid outs ctr).1 → ctr ≤ m.file_id := by
  induction outs with
  | nil => intro ctr m h; simp [buildAll] at h
  | cons o os ih =>
      intro ctr m h
      cases hb : CompactionOutput.build env o rid ctr with
      | ok p =>
          cases p with
          | mk m0 ctr2 =>
              have hrw : (buildAll env rid (o :: os) ctr).1 =
                  .ok m0 :: (buildAll env rid os ctr2).1 := by
                simp [buildAll, hb]
              rw [hrw] at h
              rcases List.mem_cons.mp h with h1 | h1
              · have hm0 : m = m0 := by
                  injection h1
                rcases build_ok_shape hb with ⟨hid, _⟩
                rw [hm0, hid]
              · have hle := ih ctr2 m h1
                rcases build_ok_shape hb with ⟨_, hctr⟩
                omega
      | error e =>
          have hrw : (buildAll env rid (o :: os) ctr).1 =
              .error e :: (buildAll env rid os ctr).1 := by
            simp [buildAll, hb]
          rw [hrw] at h
          rcases List.mem_cons.mp h with h1 | h1
          · exact absurd h1 (by simp)
          · exact ih ctr m h1

/-- C6: when every pre-existing (input or expired) file id is below the fresh-id
counter — the model of `FileId::random()` yielding ids that collide with no
existing file — the committed edit's added metas carry file ids different from
every removed meta's id, so `files_to_add` and `files_to_remove` are disjoint. -/
theorem added_files_fresh_ids_disjoint_from_removed
    (env : Env) (t : CompactionTaskImpl) (w : World) (ctr : Nat) (edit : RegionEdit)
    (hfresh : ∀ m ∈ inputMetas t ++ expiredMetas t, m.file_id < ctr)
    (hc : (run env t w ctr).2.1.commits = w.commits ++ [edit]) :
    (∀ m ∈ edit.files_to_add, ∀ m2 ∈ edit.files_to_remove, m.file_id ≠ m2.file_id) ∧
    ∀ m ∈ edit.files_to_add, m ∉ edit.files_to_remove := by
  rcases run_commits_shape env t w ctr hc with ⟨metas, hcm, rfl⟩
  have hadd : ∀ m, m ∈ extendMetas ([] : List FileMeta) metas → ctr ≤ m.file_id := by
    intro m hm
    rcases (mem_extendMetas metas [] m).mp hm with h1 | h1
    · cases h1
    · exact buildAll_ok_le env t.region_id t.outputs ctr m (collectResults_ok_mem hcm m h1)
  have hrem : ∀ m2, m2 ∈ extendMetas (extendMetas [] (inputMetas t)) (expiredMetas t) →
      m2.file_id < ctr := by
    intro m2 hm2
    rcases (mem_extendMetas _ _ m2).mp hm2 with h1 | h1
    · rcases (mem_extendMetas _ _ m2).mp h1 with h2 | h2
      · cases h2
      · exact hfresh m2 (List.mem_append.mpr (Or.inl h2))
    · exact hfresh m2 (List.mem_append.mpr (Or.inr h1))
  constructor
  · intro m hm m2 hm2
    have h1 := hadd m hm
    have h2 := hrem m2 hm2
    omega
  · intro m hm hmem
    have h1 := hadd m hm
    have h2 := hrem m hmem
    omega

/-! ### A concrete successful round with a shared input and an expired file -/

def fmA : FileMeta :=
  { region_id := 1, file_id := 11, time_range := none, level := 0, file_size := 10 }

def fhA : FileHandle := { handle_id := 1, meta := fmA }

def fmB : FileMeta :=
  { region_id := 1, file_id := 12, time_range := none, level := 0, file_size := 20 }

def fhB : FileHandle := { handle_id := 2, meta := fmB }

def fmC : FileMeta :=
  { region_id := 1, file_id := 13, time_range := none, level := 0, file_size := 30 }

def fhC : FileHandle := { handle_id := 3, meta := fmC }

/-- First output: inputs `fhA`, `fhB`. -/
def outA : CompactionOutput :=
  { output_level := 1, bucket_bound := 0, bucket := 100, inputs := [fhA, fhB] }

/-- Second output shares `fhB` with the first. -/
def outB : CompactionOutput :=
  { output_level := 1, bucket_bound := 100, bucket := 100, inputs := [fhB] }

/-- A round with a handle shared across two outputs and an expired SST. -/
def task1 : CompactionTaskImpl :=
  { region_id := 1, region_version := 7, outputs := [outA, outB], expired_ssts := [fhC] }

/-- The edit `run env0 task1 w0 20` commits. -/
def edit1 : RegionEdit :=
  { region_version := 7, flushed_sequence := none,
    files_to_add :=
      [{ region_id := 1, file_id := 20, time_range := none, level := 1, file_size := 0 },
       { region_id := 1, file_id := 21, time_range := none, level := 1, file_size := 0 }],
    files_to_remove := [fmA, fmB, fmC] }

/-- Witness for C2: the concrete removal list `[fmA, fmB, fmC]` of the round is
duplicate-free and, instantiated at the shared meta `fmB`, membership matches
the union of inputs and expired files. -/
theorem files_to_remove_is_deduped_union_witness :
    (run env0 task1 w0 20).2.2.2 = Except.ok () ∧
    (run env0 task1 w0 20).2.1.commits = w0.commits ++ [edit1] ∧
    edit1.files_to_remove.Nodup ∧
    (fmB ∈ edit1.files_to_remove ↔ (fmB ∈ inputMetas task1 ∨ fmB ∈ expiredMetas task1)) :=
  ⟨rfl, rfl, (files_to_remove_is_deduped_union env0 task1 w0 20 edit1 rfl rfl).1,
    (files_to_remove_is_deduped_union env0 task1 w0 20 edit1 rfl rfl).2 fmB⟩

/-- Witness for C6 on the same round: the existing ids 11, 12, 13 are below the
fresh-id counter 20, and indeed no added meta occurs among the removed. -/
theorem added_files_fresh_ids_disjoint_from_removed_witness :
    (∀ m ∈ inputMetas task1 ++ expiredMetas task1, m.file_id < 20) ∧
    ∀ m ∈ edit1.files_to_add, m ∉ edit1.files_to_remove :=
  ⟨by decide,
    (added_files_fresh_ids_disjoint_from_removed env0 task1 w0 20 edit1 (by decide) rfl).2⟩

end Compaction

namespace Compaction

/-- C10: a meta that is both a compaction input and an expired SST of the round
appears exactly once in the committed edit's removal list: inputs and expired
metas pass through the same de-duplicating set before the list is built. -/
theorem shared_input_and_expired_meta_removed_once
    (env : Env) (t : CompactionTaskImpl) (w : World) (ctr : Nat) (edit : RegionEdit)
    (m : FileMeta)
    (hc : (run env t w ctr).2.1.commits = w.commits ++ [edit])
    (_hin : m ∈ inputMetas t) (hex : m ∈ expiredMetas t) :
    edit.files_to_remove.count m = 1 := by
  rcases run_commits_shape env t w ctr hc with ⟨metas, hcm, rfl⟩
  have hnd : (extendMetas (extendMetas [] (inputMetas t)) (expiredMetas t)).Nodup :=
    nodup_extendMetas _ (nodup_extendMetas _ List.nodup_nil)
  have hmem : m ∈ extendMetas (extendMetas [] (inputMetas t)) (expiredMetas t) :=
    (mem_extendMetas _ _ m).mpr (Or.inr hex)
  exact List.count_eq_one_of_mem hnd hmem

/-- A round in which the same file is both the only compaction input and an
expired SST. -/
def out3 : CompactionOutput :=
  { output_level := 1, bucket_bound := 0, bucket := 100, inputs := [fhA] }

def task3 : CompactionTaskImpl :=
  { region_id := 1, region_version := 7, outputs := [out3], expired_ssts := [fhA] }

/-- The edit `run env0 task3 w0 20` commits: `fmA` is removed once. -/
def edit3 : RegionEdit :=
  { region_version := 7, flushed_sequence := none,
    files_to_add :=
      [{ region_id := 1, file_id := 20, time_range := none, level := 1, file_size := 0 }],
    files_to_remove := [fmA] }

/-- Witness for C10 at the concrete overlapping round. -/
theorem shared_input_and_expired_meta_removed_once_witness :
    (run env0 task3 w0 20).2.1.commits = w0.commits ++ [edit3] ∧
    fmA ∈ inputMetas task3 ∧ fmA ∈ expiredMetas task3 ∧
    edit3.files_to_remove.count fmA = 1 :=
  ⟨rfl, List.Mem.head _, List.Mem.head _,
    shared_input_and_expired_meta_removed_once env0 task3 w0 20 edit3 fmA rfl
      (List.Mem.head _) (List.Mem.head _)⟩

/-- C5: a successful `CompactionOutput::build` opened its merged read stream
over the output's inputs restricted to exactly `[bucket_bound,
bucket_bound + bucket)`: the stream holds an input row's timestamp iff it lies
in that half-open interval, so rows outside it are excluded. -/
theorem build_reader_restricted_to_bucket
    (env : Env) (o : CompactionOutput) (rid ctr : Nat) (m : FileMeta) (c : Nat)
    (h : CompactionOutput.build env o rid ctr = .ok (m, c)) :
    ∃ rows,
      build_sst_reader env o.inputs o.bucket_bound (o.bucket_bound + o.bucket) =
        .ok rows ∧
      ∀ ts : Int, ts ∈ rows ↔
        (ts ∈ (o.inputs.map fun hd => env.contents hd.meta.file_id).flatten ∧
         o.bucket_bound ≤ ts ∧ ts < o.bucket_bound + o.bucket) := by
  unfold CompactionOutput.build at h
  cases hr : build_sst_reader env o.inputs o.bucket_bound (o.bucket_bound + o.bucket) with
  | error e => rw [hr] at h; cases h
  | ok rows =>
      refine ⟨rows, rfl, ?_⟩
      unfold build_sst_reader at hr
      cases he : env.readerErr o.inputs o.bucket_bound (o.bucket_bound + o.bucket) with
      | some e => rw [he] at hr; cases hr
      | none =>
          rw [he] at hr
          dsimp only at hr
          injection hr with hr
          intro ts
          rw [← hr]
          simp [List.mem_filter, decide_eq_true_eq]
          tauto

/-- C7: a successful `CompactionOutput::build` returns a meta whose file id is
the freshly allocated output id, whose level is the output's target level,
whose region id is the given one, and whose time range and size are exactly
those the storage layer's write reported. -/
theorem build_meta_fields_from_write
    (env : Env) (o : CompactionOutput) (rid ctr : Nat) (m : FileMeta) (c : Nat)
    (h : CompactionOutput.build env o rid ctr = .ok (m, c)) :
    ∃ rows info,
      build_sst_reader env o.inputs o.bucket_bound (o.bucket_bound + o.bucket) =
        .ok rows ∧
      env.write_sst ctr rows = .ok info ∧
      m.file_id = ctr ∧ m.level = o.output_level ∧ m.region_id = rid ∧
      m.time_range = info.time_range ∧ m.file_size = info.file_size ∧ c = ctr + 1 := by
  unfold CompactionOutput.build at h
  cases hr : build_sst_reader env o.inputs o.bucket_bound (o.bucket_bound + o.bucket) with
  | error e => rw [hr] at h; cases h
  | ok rows =>
      rw [hr] at h
      dsimp only at h
      cases hw : env.write_sst ctr rows with
      | error e => rw [hw] at h; cases h
      | ok info =>
          rw [hw] at h
          dsimp only at h
          cases h
          exact ⟨rows, info, rfl, hw, rfl, rfl, rfl, rfl, rfl, rfl⟩

/-- An environment with actual rows in file 11, some outside the bucket. -/
def env5 : Env :=
  { contents := fun fid => if fid = 11 then [-5, 0, 50, 150] else [],
    readerErr := fun _ _ _ => none,
    write_sst := fun _ rows => .ok { time_range := some (0, 50), file_size := rows.length },
    commitOk := fun _ => true }

/-- One output over `fhA` (file 11), bucket `[0, 100)`. -/
def out5 : CompactionOutput :=
  { output_level := 1, bucket_bound := 0, bucket := 100, inputs := [fhA] }

/-- The meta `CompactionOutput.build env5 out5 1 20` produces: rows `0` and `50`
survive the bucket restriction, `-5` and `150` are excluded. -/
def fm5 : FileMeta :=
  { region_id := 1, file_id := 20, time_range := some (0, 50), level := 1, file_size := 2 }

/-- Witness for C5 on the concrete output. -/
theorem build_reader_restricted_to_bucket_witness :
    CompactionOutput.build env5 out5 1 20 = Except.ok (fm5, 21) ∧
    ∃ rows,
      build_sst_reader env5 out5.inputs out5.bucket_bound (out5.bucket_bound + out5.bucket) =
        Except.ok rows ∧
      ∀ ts : Int, ts ∈ rows ↔
        (ts ∈ (out5.inputs.map fun hd => env5.contents hd.meta.file_id).flatten ∧
         out5.bucket_bound ≤ ts ∧ ts < out5.bucket_bound + out5.bucket) :=
  ⟨rfl, build_reader_restricted_to_bucket env5 out5 1 20 fm5 21 rfl⟩

/-- Witness for C7 on the same concrete output. -/
theorem build_meta_fields_from_write_witness :
    CompactionOutput.build env5 out5 1 20 = Except.ok (fm5, 21) ∧
    ∃ rows info,
      build_sst_reader env5 out5.inputs out5.bucket_bound (out5.bucket_bound + out5.bucket) =
        Except.ok rows ∧
      env5.write_sst 20 rows = Except.ok info ∧
      fm5.file_id = 20 ∧ fm5.level = out5.output_level ∧ fm5.region_id = 1 ∧
      fm5.time_range = info.time_range ∧ fm5.file_size = info.file_size ∧ 21 = 20 + 1 :=
  ⟨rfl, build_meta_fields_from_write env5 out5 1 20 fm5 21 rfl⟩

end Compaction
